import Mathlib

/-!
Shallow embedding of `fieldservice_sale/models/sale_order.py` (Odoo module
extending `sale.order` with field-service order generation and linkage).

Records are plain structures; many2one references that can be empty are
`Option`; recordsets are lists in database/search order; the `fsm.order`
table together with message posts is the explicit state `Env` threaded
through the stateful methods.  Durations ("numeric hours") are modelled
as rationals.  Recordset union (`|=`) deduplicates by record id while
preserving first-occurrence order, and `mapped` over a many2one drops
empty references and deduplicates, both modelled below.
-/

namespace FieldserviceSale

/-- `fsm.order.template`: instructions text, duration in hours, category set. -/
structure OrderTemplate where
  id : Nat
  instructions : Option String
  duration : ℚ
  category_ids : List Nat
deriving DecidableEq

/-- `product.product` fields read by this module. -/
structure Product where
  field_service_tracking : String
  fsm_order_template_id : Option OrderTemplate
deriving DecidableEq

/-- `sale.order.line` fields read by this module. -/
structure SaleOrderLine where
  id : Nat
  product_id : Product
deriving DecidableEq

/-- `res.partner` fields read by this module. -/
structure Partner where
  id : Nat
  fsm_location : Bool
  commercial_partner_id : Nat
deriving DecidableEq

/-- `fsm.location`: owning partner and optional directions text. -/
structure FsmLocation where
  id : Nat
  partner_id : Nat
  direction : Option String
deriving DecidableEq

/-- `sale.order` fields read by this module. -/
structure SaleOrder where
  id : Nat
  partner_id : Partner
  partner_shipping_id : Partner
  fsm_location_id : Option FsmLocation
  expected_date : Option Nat
  company_id : Nat
  order_line : List SaleOrderLine
deriving DecidableEq

/-- The values dict returned by `_field_create_fsm_order_prepare_values`. -/
structure FsmOrderValues where
  location_id : Option Nat
  location_directions : Option String
  request_early : Option Nat
  scheduled_date_start : Option Nat
  todo : String
  category_ids : List Nat
  scheduled_duration : ℚ
  sale_id : Nat
  company_id : Nat
deriving DecidableEq

/-- A persisted `fsm.order` record. -/
structure FsmOrder where
  id : Nat
  sale_id : Option Nat
  sale_line_id : Option Nat
  location_id : Option Nat
  location_directions : Option String
  request_early : Option Nat
  scheduled_date_start : Option Nat
  todo : String
  category_ids : List Nat
  scheduled_duration : ℚ
  company_id : Option Nat
deriving DecidableEq

/-- State visible to this module: the `fsm.order` table (in id/creation
order), the id the next `create` will assign, and the posted messages as
(target model, target record id, referenced record id) triples — the exact
markup of the message body is an external concern. -/
structure Env where
  fsm_orders : List FsmOrder
  next_fsm_id : Nat
  messages : List (String × Nat × Nat)
deriving DecidableEq

/-- Recordset union `|=` on category ids: keep the left operand, append
each right-hand element not already present (deduplicating by id). -/
def rsUnionNat (a b : List Nat) : List Nat :=
  b.foldl (fun acc x => if acc.contains x then acc else acc ++ [x]) a

/-- Recordset union `|=` on `fsm.order` recordsets, deduplicating by id. -/
def rsUnionFsm (a b : List FsmOrder) : List FsmOrder :=
  b.foldl (fun acc f => if acc.any (fun g => g.id == f.id) then acc else acc ++ [f]) a

/-- `mapped("product_id.fsm_order_template_id")` over the filtered lines:
drop lines with no template and deduplicate templates by id, preserving
first-occurrence (line) order. -/
def rsDedupTemplates (ts : List OrderTemplate) : List OrderTemplate :=
  ts.foldl (fun acc t => if acc.any (fun u => u.id == t.id) then acc else acc ++ [t]) []

/-- The first search domain of `_compute_fsm_order_ids`:
`("sale_line_id", "in", order.order_line.ids)`. -/
def lineDomain (o : SaleOrder) (f : FsmOrder) : Bool :=
  match f.sale_line_id with
  | some l => (o.order_line.map SaleOrderLine.id).contains l
  | none => false

/-- The second search domain: `("sale_id", "=", order.id)`. -/
def saleDomain (o : SaleOrder) (f : FsmOrder) : Bool :=
  f.sale_id == some o.id

/-- Body of `_compute_fsm_order_ids` for one order of `self`: start from
the empty recordset, union in both searches, assign the result and its
length (`fsm_order_ids`, `fsm_order_count`).  Pure read. -/
def compute_fsm_order_ids (env : Env) (o : SaleOrder) : List FsmOrder × Nat :=
  let byLine := env.fsm_orders.filter (lineDomain o)
  let bySale := env.fsm_orders.filter (saleDomain o)
  let orders := rsUnionFsm (rsUnionFsm [] byLine) bySale
  (orders, orders.length)

/-- The search domain of `onchange_partner_id`: the `|`/`|` triple on
`partner_id`, narrowed to the customer alone when the customer is itself
flagged `fsm_location`. -/
def onchangePartnerIdDomain (o : SaleOrder) : FsmLocation → Bool :=
  if o.partner_id.fsm_location then
    fun l => l.partner_id == o.partner_id.id
  else
    fun l => l.partner_id == o.partner_id.id
      || l.partner_id == o.partner_shipping_id.id
      || l.partner_id == o.partner_id.commercial_partner_id

/-- `onchange_partner_id`: search `fsm.location` with the domain and assign
`fsm_location_id := location_ids and location_ids[0] or False`.  The
`super()` call only runs base sale logic that does not touch
`fsm_location_id`, so it is not part of the state modelled here;
`locations` is the `fsm.location` table in search order. -/
def onchange_partner_id (locations : List FsmLocation) (o : SaleOrder) : SaleOrder :=
  { o with fsm_location_id := (locations.filter (onchangePartnerIdDomain o)).head? }

/-- Body of `_field_create_fsm_order_prepare_values` after `ensure_one`:
filter lines whose product tracking is `"sale"`, collect the templates,
aggregate note/hours/categories in one pass, and build the values dict. -/
def prepareValuesOne (o : SaleOrder) : FsmOrderValues :=
  let lines := o.order_line.filter
    (fun sol => sol.product_id.field_service_tracking == "sale")
  let templates := rsDedupTemplates
    (lines.filterMap (fun sol => sol.product_id.fsm_order_template_id))
  let agg := templates.foldl
    (fun (acc : String × ℚ × List Nat) t =>
      (acc.1 ++ t.instructions.getD "", acc.2.1 + t.duration,
        rsUnionNat acc.2.2 t.category_ids))
    ("", (0 : ℚ), ([] : List Nat))
  { location_id := o.fsm_location_id.map FsmLocation.id
    location_directions := o.fsm_location_id.bind FsmLocation.direction
    request_early := o.expected_date
    scheduled_date_start := o.expected_date
    todo := agg.1
    category_ids := agg.2.2
    scheduled_duration := agg.2.1
    sale_id := o.id
    company_id := o.company_id }

/-- `_field_create_fsm_order_prepare_values` on a recordset `self`:
`ensure_one()` fails unless `self` is a singleton. -/
def field_create_fsm_order_prepare_values (self : List SaleOrder) :
    Except String FsmOrderValues :=
  match self with
  | [o] => Except.ok (prepareValuesOne o)
  | _ => Except.error "Expected singleton"

/-- One iteration of `_field_create_fsm_order`: build the values for `so`,
`create` the `fsm.order` with them (`sudo`: elevated privilege, not part
of the data model), and post the two cross-reference messages. -/
def createOneFsmOrder (so : SaleOrder) (env : Env) : FsmOrder × Env :=
  let v := prepareValuesOne so
  let fsm_order : FsmOrder :=
    { id := env.next_fsm_id
      sale_id := some v.sale_id
      sale_line_id := none
      location_id := v.location_id
      location_directions := v.location_directions
      request_early := v.request_early
      scheduled_date_start := v.scheduled_date_start
      todo := v.todo
      category_ids := v.category_ids
      scheduled_duration := v.scheduled_duration
      company_id := some v.company_id }
  (fsm_order,
    { fsm_orders := env.fsm_orders ++ [fsm_order]
      next_fsm_id := env.next_fsm_id + 1
      messages := env.messages ++
        [("sale.order", so.id, fsm_order.id), ("fsm.order", fsm_order.id, so.id)] })

/-- `_field_create_fsm_order`: for each order of `self`, create its
`fsm.order` and record it in the returned mapping (a python dict modelled
as an association list where the last binding wins). -/
def field_create_fsm_order (self : List SaleOrder) (env : Env) :
    List (Nat × FsmOrder) × Env :=
  self.foldl
    (fun acc so =>
      let r := createOneFsmOrder so acc.2
      (acc.1 ++ [(so.id, r.1)], r.2))
    ([], env)

/-- Python-dict lookup on an association list: the last binding for the key. -/
def dictGet (m : List (Nat × FsmOrder)) (k : Nat) : Option FsmOrder :=
  (m.reverse.find? (fun p => p.1 == k)).map Prod.snd

/-- The search domain of `_field_find_fsm_order`:
`("sale_id", "in", self.ids)` and `("sale_line_id", "=", False)`. -/
def isOrderLevelFor (ids : List Nat) (f : FsmOrder) : Bool :=
  (match f.sale_id with
   | some s => ids.contains s
   | none => false) && f.sale_line_id == none

/-- `_field_find_fsm_order`: one search for all orders of `self`, a dict
from `fsm_order.sale_id.id` to the record, then reuse the mapped record or
create one per order with no entry. -/
def field_find_fsm_order (self : List SaleOrder) (env : Env) :
    List (Nat × FsmOrder) × Env :=
  let mapping := (env.fsm_orders.filter (isOrderLevelFor (self.map SaleOrder.id))).map
    (fun f => (f.sale_id.getD 0, f))
  self.foldl
    (fun acc so =>
      match dictGet mapping so.id with
      | some f => (acc.1 ++ [(so.id, f)], acc.2)
      | none =>
          let r := createOneFsmOrder so acc.2
          (acc.1 ++ [(so.id, r.1)], r.2))
    ([], env)

/-- `_action_confirm` for one order: run the base confirmation (external to
this module; it returns `baseResult` and does not touch the `fsm.order`
table), then, if any line tracks field service, require `fsm_location_id`
and delegate to the external per-line generation collaborator `gen`
(`order_line._field_service_generation()`), kept abstract as a parameter. -/
def action_confirm {α : Type} (gen : List SaleOrderLine → Env → Env)
    (baseResult : α) (o : SaleOrder) (env : Env) : Except String (α × Env) :=
  if o.order_line.any (fun sol => sol.product_id.field_service_tracking != "no") then
    if o.fsm_location_id.isNone then
      Except.error "FSM Location must be set"
    else
      Except.ok (baseResult, gen o.order_line env)
  else
    Except.ok (baseResult, env)

/-- The order-level `fsm.order` records of one sale order: `sale_id`
matches and `sale_line_id` is unset. -/
def orderLevelFilter (soId : Nat) (f : FsmOrder) : Bool :=
  f.sale_id == some soId && f.sale_line_id == none

/-- All order-level `fsm.order` records for the given sale order id. -/
def orderLevelOrdersFor (env : Env) (soId : Nat) : List FsmOrder :=
  env.fsm_orders.filter (orderLevelFilter soId)

/-- Spec-side description of the note aggregation: the templates'
instruction texts concatenated in order, empty string when absent. -/
def joinInstructions (ts : List OrderTemplate) : String :=
  match ts with
  | [] => ""
  | t :: rest => t.instructions.getD "" ++ joinInstructions rest

/-- Spec-side description of the category aggregation: union of all the
templates' category sets, duplicates collapsed, in order. -/
def aggCategories (ts : List OrderTemplate) : List Nat :=
  ts.foldl (fun acc t => rsUnionNat acc t.category_ids) []

/-- The templates collected by `prepareValuesOne`: templates of the order's
`"sale"`-tracked lines, missing ones dropped, deduplicated by id. -/
def collectedTemplates (o : SaleOrder) : List OrderTemplate :=
  rsDedupTemplates
    ((o.order_line.filter
      (fun sol => sol.product_id.field_service_tracking == "sale")).filterMap
      (fun sol => sol.product_id.fsm_order_template_id))

/-- A well-formed database: record ids in the `fsm.order` table are unique. -/
def wfEnv (env : Env) : Prop :=
  (env.fsm_orders.map FsmOrder.id).Nodup

/-! Concrete records used to instantiate the theorems. -/

/-- An empty `fsm.order` table. -/
def emptyEnv : Env := { fsm_orders := [], next_fsm_id := 1, messages := [] }

/-- A plain customer, not flagged as a service location. -/
def exPartner : Partner := { id := 1, fsm_location := false, commercial_partner_id := 2 }

/-- A customer flagged as a service location itself. -/
def exFlaggedPartner : Partner := { id := 1, fsm_location := true, commercial_partner_id := 2 }

/-- Template with instructions "A", duration 1.5 h, one category. -/
def exTemplateA : OrderTemplate :=
  { id := 1, instructions := some "A", duration := 3 / 2, category_ids := [10] }

/-- Template with instructions "B", duration 2 h, two categories. -/
def exTemplateB : OrderTemplate :=
  { id := 2, instructions := some "B", duration := 2, category_ids := [10, 20] }

/-- Line whose product tracks `"sale"` and carries template A. -/
def exLineA : SaleOrderLine :=
  { id := 101, product_id := { field_service_tracking := "sale", fsm_order_template_id := some exTemplateA } }

/-- Line whose product tracks `"sale"` and carries template B. -/
def exLineB : SaleOrderLine :=
  { id := 102, product_id := { field_service_tracking := "sale", fsm_order_template_id := some exTemplateB } }

/-- Line whose product tracks `"no"` (no field service). -/
def exLineNo : SaleOrderLine :=
  { id := 103, product_id := { field_service_tracking := "no", fsm_order_template_id := none } }

/-- Line whose product tracks `"delivery"` (service-related, not order-level). -/
def exLineDelivery : SaleOrderLine :=
  { id := 104, product_id := { field_service_tracking := "delivery", fsm_order_template_id := none } }

/-- A service location owned by partner 1. -/
def exLocation : FsmLocation := { id := 7, partner_id := 1, direction := some "ring twice" }

/-- A service location owned by the commercial parent (partner 2). -/
def exParentLocation : FsmLocation := { id := 8, partner_id := 2, direction := none }

/-- Order with two `"sale"`-tracked lines, used for the aggregation claims. -/
def exOrderSale : SaleOrder :=
  { id := 500, partner_id := exPartner, partner_shipping_id := exPartner,
    fsm_location_id := some exLocation, expected_date := some 20260101,
    company_id := 1, order_line := [exLineA, exLineB] }

/-- Order with a single `"no"`-tracked line. -/
def exOrderNo : SaleOrder :=
  { id := 501, partner_id := exPartner, partner_shipping_id := exPartner,
    fsm_location_id := none, expected_date := none,
    company_id := 1, order_line := [exLineNo] }

/-- Order with a `"delivery"`-tracked line and no service location. -/
def exOrderDelivery : SaleOrder :=
  { id := 502, partner_id := exPartner, partner_shipping_id := exPartner,
    fsm_location_id := none, expected_date := none,
    company_id := 1, order_line := [exLineDelivery] }

/-- Order whose customer is flagged as a service location. -/
def exOrderFlagged : SaleOrder :=
  { id := 503, partner_id := exFlaggedPartner, partner_shipping_id := exFlaggedPartner,
    fsm_location_id := none, expected_date := none,
    company_id := 1, order_line := [] }

/-- An order-level `fsm.order` (no line reference) for order 500. -/
def exFsmOrderLevel : FsmOrder :=
  { id := 31, sale_id := some 500, sale_line_id := none, location_id := some 7,
    location_directions := none, request_early := none, scheduled_date_start := none,
    todo := "", category_ids := [], scheduled_duration := 0, company_id := some 1 }

/-- A line-level `fsm.order` for line 101 of order 500. -/
def exFsmLineLevel : FsmOrder :=
  { id := 32, sale_id := some 500, sale_line_id := some 101, location_id := some 7,
    location_directions := none, request_early := none, scheduled_date_start := none,
    todo := "", category_ids := [], scheduled_duration := 0, company_id := some 1 }

/-- Table holding the two linked `fsm.order` records above. -/
def exEnvLinked : Env :=
  { fsm_orders := [exFsmOrderLevel, exFsmLineLevel], next_fsm_id := 33, messages := [] }

/-! Helper lemmas. -/

/-- Splitting the one-pass aggregation fold of `prepareValuesOne` into its
three components. -/
theorem agg_foldl (ts : List OrderTemplate) (s : String) (q : ℚ) (c : List Nat) :
    ts.foldl
      (fun (acc : String × ℚ × List Nat) t =>
        (acc.1 ++ t.instructions.getD "", acc.2.1 + t.duration,
          rsUnionNat acc.2.2 t.category_ids)) (s, q, c)
    = (s ++ joinInstructions ts, q + (ts.map OrderTemplate.duration).sum,
        ts.foldl (fun acc t => rsUnionNat acc t.category_ids) c) := by
  induction ts generalizing s q c with
  | nil => simp [joinInstructions]
  | cons t ts ih => simp [joinInstructions, ih, String.append_assoc, add_assoc]

/-- `prepareValuesOne` written field by field. -/
theorem prepareValuesOne_eq (o : SaleOrder) :
    prepareValuesOne o =
      { location_id := o.fsm_location_id.map FsmLocation.id
        location_directions := o.fsm_location_id.bind FsmLocation.direction
        request_early := o.expected_date
        scheduled_date_start := o.expected_date
        todo := joinInstructions (collectedTemplates o)
        category_ids := aggCategories (collectedTemplates o)
        scheduled_duration := ((collectedTemplates o).map OrderTemplate.duration).sum
        sale_id := o.id
        company_id := o.company_id } := by
  unfold prepareValuesOne collectedTemplates aggCategories
  simp [agg_foldl]

/-- Unfolding one step of the `rsUnionNat` fold. -/
theorem rsUnionNat_cons (a : List Nat) (x : Nat) (b : List Nat) :
    rsUnionNat a (x :: b) = rsUnionNat (if a.contains x then a else a ++ [x]) b := rfl

/-- `rsUnionNat` keeps a duplicate-free accumulator duplicate-free. -/
theorem rsUnionNat_nodup (b a : List Nat) (h : a.Nodup) : (rsUnionNat a b).Nodup := by
  induction b generalizing a with
  | nil => exact h
  | cons x b ih =>
      rw [rsUnionNat_cons]
      by_cases hx : a.contains x = true
      · rw [if_pos hx]
        exact ih a h
      · rw [if_neg hx]
        have hxa : x ∉ a := by simpa using hx
        exact ih (a ++ [x]) (by simp [List.nodup_append, h, hxa])

/-- The category aggregation never produces duplicates. -/
theorem aggCategories_nodup (ts : List OrderTemplate) : (aggCategories ts).Nodup := by
  have key : ∀ (us : List OrderTemplate) (acc : List Nat), acc.Nodup →
      (us.foldl (fun acc t => rsUnionNat acc t.category_ids) acc).Nodup := by
    intro us
    induction us with
    | nil => intro acc h; exact h
    | cons t us ih =>
        intro acc h
        exact ih _ (rsUnionNat_nodup t.category_ids acc h)
  exact key ts [] List.nodup_nil

/-! Claim theorems. -/

/-- Claim C4: `buildServiceOrderValues` aggregates over the templates
collected from the order's `"sale"`-tracked lines: the note is each
template's instructions concatenated in line order (empty string when a
template has no instructions), the scheduled duration is the sum of the
durations, and the category set is the union of all category sets with
duplicates collapsed. -/
theorem prepare_values_aggregation (o : SaleOrder) (ts : List OrderTemplate)
    (h : collectedTemplates o = ts) :
    (prepareValuesOne o).todo = joinInstructions ts ∧
    (prepareValuesOne o).scheduled_duration = (ts.map OrderTemplate.duration).sum ∧
    (prepareValuesOne o).category_ids = aggCategories ts ∧
    (prepareValuesOne o).category_ids.Nodup := by
  subst h
  refine ⟨?_, ?_, ?_, ?_⟩
  · simp [prepareValuesOne_eq]
  · simp [prepareValuesOne_eq]
  · simp [prepareValuesOne_eq]
  · simpa [prepareValuesOne_eq] using aggCategories_nodup (collectedTemplates o)

/-- Witness for C4: on the order with two `"sale"` lines whose templates
have durations 1.5 h and 2 h and instructions "A" and "B", the prepared
values have note "AB" and scheduled duration 3.5 h. -/
theorem prepare_values_aggregation_witness :
    collectedTemplates exOrderSale = [exTemplateA, exTemplateB] ∧
    (prepareValuesOne exOrderSale).todo = "AB" ∧
    (prepareValuesOne exOrderSale).scheduled_duration = 3.5 := by
  have h := prepare_values_aggregation exOrderSale [exTemplateA, exTemplateB] (by rfl)
  refine ⟨by rfl, h.1.trans (by decide), h.2.1.trans ?_⟩
  show (List.map OrderTemplate.duration [exTemplateA, exTemplateB]).sum = 3.5
  simp [exTemplateA, exTemplateB]
  norm_num

/-- Claim C5: the value record built by `buildServiceOrderValues` maps the
order's fields one for one — location and its directions from
`fsm_location_id`, requested and scheduled dates from `expected_date`,
the aggregated note, categories and hours, and the order's id and company;
the operation is a pure function of the order (no side effects). -/
theorem prepare_values_field_mapping (o : SaleOrder) :
    (prepareValuesOne o).location_id = o.fsm_location_id.map FsmLocation.id ∧
    (prepareValuesOne o).location_directions = o.fsm_location_id.bind FsmLocation.direction ∧
    (prepareValuesOne o).request_early = o.expected_date ∧
    (prepareValuesOne o).scheduled_date_start = o.expected_date ∧
    (prepareValuesOne o).todo = joinInstructions (collectedTemplates o) ∧
    (prepareValuesOne o).category_ids = aggCategories (collectedTemplates o) ∧
    (prepareValuesOne o).scheduled_duration
      = ((collectedTemplates o).map OrderTemplate.duration).sum ∧
    (prepareValuesOne o).sale_id = o.id ∧
    (prepareValuesOne o).company_id = o.company_id := by
  simp [prepareValuesOne_eq]

/-- Claim C9: `_field_create_fsm_order_prepare_values` requires exactly one
sale order: any input recordset that is not a singleton fails
(`ensure_one`), and on a singleton the failure branch is unreachable and
the values of that one order are returned. -/
theorem prepare_values_requires_singleton (self : List SaleOrder) :
    (self.length ≠ 1 →
      ∃ msg, field_create_fsm_order_prepare_values self = Except.error msg) ∧
    (∀ o, self = [o] →
      field_create_fsm_order_prepare_values self = Except.ok (prepareValuesOne o)) := by
  constructor
  · intro h
    match self with
    | [] => exact ⟨"Expected singleton", rfl⟩
    | [o] => exact absurd rfl h
    | a :: b :: t => exact ⟨"Expected singleton", rfl⟩
  · intro o h
    subst h
    rfl

/-- Witness for C9: the empty recordset fails and the singleton containing
the concrete order succeeds. -/
theorem prepare_values_requires_singleton_witness :
    (∃ msg, field_create_fsm_order_prepare_values [] = Except.error msg) ∧
    field_create_fsm_order_prepare_values [exOrderSale]
      = Except.ok (prepareValuesOne exOrderSale) :=
  ⟨(prepare_values_requires_singleton []).1 (by decide),
    (prepare_values_requires_singleton [exOrderSale]).2 exOrderSale rfl⟩

/-- Claim C2: confirming an order that has a service-related line (tracking
mode ≠ `"no"`) but no service location raises the validation error
"FSM Location must be set" synchronously, blocking confirmation; no
`fsm.order` is created (the error is raised before any generation and no
state is produced). -/
theorem action_confirm_missing_location {α : Type} (gen : List SaleOrderLine → Env → Env)
    (baseResult : α) (o : SaleOrder) (env : Env)
    (hline : ∃ sol ∈ o.order_line, sol.product_id.field_service_tracking ≠ "no")
    (hloc : o.fsm_location_id = none) :
    action_confirm gen baseResult o env = Except.error "FSM Location must be set" := by
  unfold action_confirm
  obtain ⟨sol, hmem, hne⟩ := hline
  rw [if_pos, if_pos]
  · simp [hloc]
  · exact List.any_eq_true.mpr ⟨sol, hmem, by simpa using hne⟩

/-- Witness for C2: the order with one `"delivery"` line and no service
location is rejected. -/
theorem action_confirm_missing_location_witness :
    action_confirm (fun _ env => env) (0 : Nat) exOrderDelivery emptyEnv
      = Except.error "FSM Location must be set" :=
  action_confirm_missing_location (fun _ env => env) 0 exOrderDelivery emptyEnv
    ⟨exLineDelivery, by decide, by decide⟩ rfl

/-- Claim C3: confirming an order all of whose lines track `"no"` never
creates an `fsm.order`, never raises the location error, and returns the
base confirmation's result unchanged (state untouched, for every line
generation collaborator `gen`). -/
theorem action_confirm_no_service_lines {α : Type} (gen : List SaleOrderLine → Env → Env)
    (baseResult : α) (o : SaleOrder) (env : Env)
    (h : ∀ sol ∈ o.order_line, sol.product_id.field_service_tracking = "no") :
    action_confirm gen baseResult o env = Except.ok (baseResult, env) := by
  unfold action_confirm
  rw [if_neg]
  simp only [List.any_eq_true, not_exists]
  intro sol
  simp only [not_and]
  intro hmem
  simp [h sol hmem]

/-- Witness for C3: the order with a single `"no"` line confirms to the
base result with the table unchanged. -/
theorem action_confirm_no_service_lines_witness :
    action_confirm (fun _ env => env) (0 : Nat) exOrderNo emptyEnv
      = Except.ok (0, emptyEnv) :=
  action_confirm_no_service_lines (fun _ env => env) 0 exOrderNo emptyEnv
    (by decide)

/-- Claim C6: when the order's customer is itself flagged as a service
location, `onchange_partner_id` narrows the search to locations owned by
that exact customer — shipping-address and commercial-entity candidates
are ignored — and when no location is owned directly by the customer the
service location is cleared. -/
theorem onchange_partner_flagged (locations : List FsmLocation) (o : SaleOrder)
    (h : o.partner_id.fsm_location = true) :
    (onchange_partner_id locations o).fsm_location_id
      = (locations.filter (fun l => l.partner_id == o.partner_id.id)).head? ∧
    ((∀ l ∈ locations, l.partner_id ≠ o.partner_id.id) →
      (onchange_partner_id locations o).fsm_location_id = none) := by
  have hd : (onchange_partner_id locations o).fsm_location_id
      = (locations.filter (fun l => l.partner_id == o.partner_id.id)).head? := by
    simp [onchange_partner_id, onchangePartnerIdDomain, h]
  refine ⟨hd, fun hn => ?_⟩
  rw [hd, List.filter_eq_nil_iff.mpr fun l hl => by simpa using hn l hl]
  rfl

/-- Witness for C6: a flagged customer (id 1, commercial parent 2) with the
only location owned by the parent ends with no service location. -/
theorem onchange_partner_flagged_witness :
    (onchange_partner_id [exParentLocation] exOrderFlagged).fsm_location_id = none :=
  (onchange_partner_flagged [exParentLocation] exOrderFlagged rfl).2 (by decide)

/-- Claim C7: when the customer is not flagged as a service location,
`onchange_partner_id` filters locations owned by the customer, the
shipping address, or the customer's commercial entity (logical OR); the
first match in search order is assigned, and with no match the field is
cleared. -/
theorem onchange_partner_unflagged (locations : List FsmLocation) (o : SaleOrder)
    (h : o.partner_id.fsm_location = false) :
    (onchange_partner_id locations o).fsm_location_id
      = (locations.filter (fun l => l.partner_id == o.partner_id.id
          || l.partner_id == o.partner_shipping_id.id
          || l.partner_id == o.partner_id.commercial_partner_id)).head? ∧
    (∀ x xs, locations.filter (fun l => l.partner_id == o.partner_id.id
          || l.partner_id == o.partner_shipping_id.id
          || l.partner_id == o.partner_id.commercial_partner_id) = x :: xs →
      (onchange_partner_id locations o).fsm_location_id = some x) ∧
    (locations.filter (fun l => l.partner_id == o.partner_id.id
          || l.partner_id == o.partner_shipping_id.id
          || l.partner_id == o.partner_id.commercial_partner_id) = [] →
      (onchange_partner_id locations o).fsm_location_id = none) := by
  have hd : (onchange_partner_id locations o).fsm_location_id
      = (locations.filter (fun l => l.partner_id == o.partner_id.id
          || l.partner_id == o.partner_shipping_id.id
          || l.partner_id == o.partner_id.commercial_partner_id)).head? := by
    simp [onchange_partner_id, onchangePartnerIdDomain, h]
  refine ⟨hd, fun x xs hx => ?_, fun hx => ?_⟩
  · rw [hd, hx]
    rfl
  · rw [hd, hx]
    rfl

/-- Witness for C7: an unflagged customer (id 1, commercial parent 2) with
exactly one location owned by the commercial parent gets that location. -/
theorem onchange_partner_unflagged_witness :
    (onchange_partner_id [exParentLocation] exOrderNo).fsm_location_id
      = some exParentLocation :=
  (onchange_partner_unflagged [exParentLocation] exOrderNo rfl).2.1
    exParentLocation [] (by decide)

/-- Claim C10: on an order with no `"sale"`-tracked line,
`buildServiceOrderValues` still returns a complete value record with empty
note, zero scheduled duration and empty category set, and
`_field_create_fsm_order` still creates exactly one `fsm.order` carrying
those empty aggregates (it neither fails nor skips creation). -/
theorem create_fsm_order_empty_aggregates (o : SaleOrder) (env : Env)
    (h : ∀ sol ∈ o.order_line, sol.product_id.field_service_tracking ≠ "sale") :
    (prepareValuesOne o).todo = "" ∧
    (prepareValuesOne o).scheduled_duration = 0 ∧
    (prepareValuesOne o).category_ids = [] ∧
    (field_create_fsm_order [o] env).2.fsm_orders
      = env.fsm_orders ++ [(createOneFsmOrder o env).1] ∧
    dictGet (field_create_fsm_order [o] env).1 o.id = some (createOneFsmOrder o env).1 ∧
    (createOneFsmOrder o env).1.todo = "" ∧
    (createOneFsmOrder o env).1.scheduled_duration = 0 ∧
    (createOneFsmOrder o env).1.category_ids = [] ∧
    (createOneFsmOrder o env).1.sale_line_id = none := by
  have hts : collectedTemplates o = [] := by
    unfold collectedTemplates
    rw [List.filter_eq_nil_iff.mpr fun sol hmem => by simpa using h sol hmem]
    rfl
  have h1 : (prepareValuesOne o).todo = "" := by
    simp [prepareValuesOne_eq, hts, joinInstructions]
  have h2 : (prepareValuesOne o).scheduled_duration = 0 := by
    simp [prepareValuesOne_eq, hts]
  have h3 : (prepareValuesOne o).category_ids = [] := by
    simp [prepareValuesOne_eq, hts, aggCategories]
  refine ⟨h1, h2, h3, ?_, ?_, ?_, ?_, ?_, ?_⟩
  · simp [field_create_fsm_order, createOneFsmOrder]
  · simp [field_create_fsm_order, dictGet]
  · simpa [createOneFsmOrder] using h1
  · simpa [createOneFsmOrder] using h2
  · simpa [createOneFsmOrder] using h3
  · simp [createOneFsmOrder]

/-- Witness for C10: creating from the order whose only line tracks
`"delivery"` appends one `fsm.order` with empty note, zero duration and no
categories. -/
theorem create_fsm_order_empty_aggregates_witness :
    (prepareValuesOne exOrderDelivery).todo = "" ∧
    (prepareValuesOne exOrderDelivery).scheduled_duration = 0 ∧
    (prepareValuesOne exOrderDelivery).category_ids = [] ∧
    (field_create_fsm_order [exOrderDelivery] emptyEnv).2.fsm_orders
      = emptyEnv.fsm_orders ++ [(createOneFsmOrder exOrderDelivery emptyEnv).1] ∧
    dictGet (field_create_fsm_order [exOrderDelivery] emptyEnv).1 exOrderDelivery.id
      = some (createOneFsmOrder exOrderDelivery emptyEnv).1 ∧
    (createOneFsmOrder exOrderDelivery emptyEnv).1.todo = "" ∧
    (createOneFsmOrder exOrderDelivery emptyEnv).1.scheduled_duration = 0 ∧
    (createOneFsmOrder exOrderDelivery emptyEnv).1.category_ids = [] ∧
    (createOneFsmOrder exOrderDelivery emptyEnv).1.sale_line_id = none :=
  create_fsm_order_empty_aggregates exOrderDelivery emptyEnv (by decide)

/-- On a single order, the search domain of `_field_find_fsm_order`
coincides with the order-level predicate. -/
theorem isOrderLevelFor_singleton (i : Nat) (f : FsmOrder) :
    isOrderLevelFor [i] f = orderLevelFilter i f := by
  unfold isOrderLevelFor orderLevelFilter
  cases hs : f.sale_id with
  | none => simp
  | some s =>
      by_cases hsi : s = i
      · subst hsi
        simp [List.contains]
      · have h1 : (s == i) = false := beq_eq_false_iff_ne.mpr hsi
        simp [List.contains, hsi, h1]

/-- `_field_find_fsm_order` on a singleton recordset when no order-level
`fsm.order` exists: one record is created. -/
theorem find_singleton_missing (o : SaleOrder) (env : Env)
    (hmap : env.fsm_orders.filter (orderLevelFilter o.id) = []) :
    field_find_fsm_order [o] env
      = ([(o.id, (createOneFsmOrder o env).1)], (createOneFsmOrder o env).2) := by
  unfold field_find_fsm_order
  have hfc : env.fsm_orders.filter (isOrderLevelFor ([o].map SaleOrder.id))
      = env.fsm_orders.filter (orderLevelFilter o.id) :=
    List.filter_congr fun f _ => isOrderLevelFor_singleton o.id f
  rw [hfc, hmap]
  simp [dictGet]

/-- `_field_find_fsm_order` on a singleton recordset when exactly one
order-level `fsm.order` exists: it is reused and nothing is created. -/
theorem find_singleton_found (o : SaleOrder) (env : Env) (f : FsmOrder)
    (hmap : env.fsm_orders.filter (orderLevelFilter o.id) = [f])
    (hf : f.sale_id = some o.id) :
    field_find_fsm_order [o] env = ([(o.id, f)], env) := by
  unfold field_find_fsm_order
  have hfc : env.fsm_orders.filter (isOrderLevelFor ([o].map SaleOrder.id))
      = env.fsm_orders.filter (orderLevelFilter o.id) :=
    List.filter_congr fun g _ => isOrderLevelFor_singleton o.id g
  rw [hfc, hmap]
  simp [dictGet, hf]

/-- The record created by `createOneFsmOrder` is order-level for its order. -/
theorem createOneFsmOrder_links (o : SaleOrder) (env : Env) :
    (createOneFsmOrder o env).1.sale_id = some o.id ∧
    (createOneFsmOrder o env).1.sale_line_id = none ∧
    (createOneFsmOrder o env).2.fsm_orders
      = env.fsm_orders ++ [(createOneFsmOrder o env).1] := by
  refine ⟨?_, rfl, rfl⟩
  simp [createOneFsmOrder, prepareValuesOne_eq]

/-- Creating for `o` appends exactly one order-level record for `o`. -/
theorem orderLevel_after_create (o : SaleOrder) (env : Env) :
    orderLevelOrdersFor (createOneFsmOrder o env).2 o.id
      = orderLevelOrdersFor env o.id ++ [(createOneFsmOrder o env).1] := by
  obtain ⟨h1, h2, h3⟩ := createOneFsmOrder_links o env
  unfold orderLevelOrdersFor
  rw [h3, List.filter_append]
  have : orderLevelFilter o.id (createOneFsmOrder o env).1 = true := by
    simp [orderLevelFilter, h1, h2]
  simp [this]

/-- Claim C1: under a consistent view with at most one order-level
`fsm.order` for the order, `_field_find_fsm_order` applied twice in
sequence to the same order resolves to the same `fsm.order` both times
(and to some order), the second invocation changes nothing (so no second
record is ever created), and exactly one order-level `fsm.order` for the
order exists afterwards. -/
theorem find_or_create_idempotent (o : SaleOrder) (env : Env)
    (h : (orderLevelOrdersFor env o.id).length ≤ 1) :
    (dictGet (field_find_fsm_order [o] env).1 o.id).isSome = true ∧
    dictGet (field_find_fsm_order [o] env).1 o.id
      = dictGet (field_find_fsm_order [o] (field_find_fsm_order [o] env).2).1 o.id ∧
    (field_find_fsm_order [o] (field_find_fsm_order [o] env).2).2
      = (field_find_fsm_order [o] env).2 ∧
    (orderLevelOrdersFor (field_find_fsm_order [o] env).2 o.id).length = 1 := by
  match hl : orderLevelOrdersFor env o.id, h with
  | [], _ =>
      have hmap : env.fsm_orders.filter (orderLevelFilter o.id) = [] := hl
      obtain ⟨hc1, hc2, hc3⟩ := createOneFsmOrder_links o env
      have hstep := find_singleton_missing o env hmap
      have hafter : orderLevelOrdersFor (createOneFsmOrder o env).2 o.id
          = [(createOneFsmOrder o env).1] := by
        rw [orderLevel_after_create o env, hl]
        rfl
      have hmap2 : (createOneFsmOrder o env).2.fsm_orders.filter (orderLevelFilter o.id)
          = [(createOneFsmOrder o env).1] := hafter
      have hstep2 := find_singleton_found o (createOneFsmOrder o env).2
        (createOneFsmOrder o env).1 hmap2 hc1
      rw [hstep]
      refine ⟨?_, ?_, ?_, ?_⟩
      · simp [dictGet]
      · simp only [hstep2]
      · simp only [hstep2]
      · simpa using congrArg List.length hafter
  | [f], _ =>
      have hmap : env.fsm_orders.filter (orderLevelFilter o.id) = [f] := hl
      have hfmem : f ∈ orderLevelOrdersFor env o.id := by
        rw [hl]
        exact List.mem_singleton.mpr rfl
      have hfprops := List.mem_filter.mp hfmem
      have hfsale : f.sale_id = some o.id := by
        have := hfprops.2
        unfold orderLevelFilter at this
        exact eq_of_beq (Bool.and_elim_left this)
      have hstep := find_singleton_found o env f hmap hfsale
      rw [hstep]
      refine ⟨?_, ?_, ?_, ?_⟩
      · simp [dictGet]
      · rw [hstep]
      · rw [hstep]
      · rw [show orderLevelOrdersFor env o.id = [f] from hl]
        rfl

/-- Witness for C1: starting from the empty table, finding twice for the
concrete order yields the same record twice, leaves the state of the first
call untouched, and exactly one order-level record exists afterwards. -/
theorem find_or_create_idempotent_witness :
    (dictGet (field_find_fsm_order [exOrderSale] emptyEnv).1 exOrderSale.id).isSome = true ∧
    dictGet (field_find_fsm_order [exOrderSale] emptyEnv).1 exOrderSale.id
      = dictGet (field_find_fsm_order [exOrderSale]
          (field_find_fsm_order [exOrderSale] emptyEnv).2).1 exOrderSale.id ∧
    (field_find_fsm_order [exOrderSale]
        (field_find_fsm_order [exOrderSale] emptyEnv).2).2
      = (field_find_fsm_order [exOrderSale] emptyEnv).2 ∧
    (orderLevelOrdersFor (field_find_fsm_order [exOrderSale] emptyEnv).2
        exOrderSale.id).length = 1 :=
  find_or_create_idempotent exOrderSale emptyEnv (by decide)

/-- Unfolding one step of the `rsUnionFsm` fold. -/
theorem rsUnionFsm_cons (a : List FsmOrder) (x : FsmOrder) (b : List FsmOrder) :
    rsUnionFsm a (x :: b)
      = rsUnionFsm (if a.any (fun g => g.id == x.id) then a else a ++ [x]) b := rfl

/-- Recordset union keeps every element of its left operand. -/
theorem mem_rsUnionFsm_left (b : List FsmOrder) :
    ∀ a f, f ∈ a → f ∈ rsUnionFsm a b := by
  induction b with
  | nil => intro a f h; exact h
  | cons x b ih =>
      intro a f h
      rw [rsUnionFsm_cons]
      by_cases hx : a.any (fun g => g.id == x.id) = true
      · rw [if_pos hx]
        exact ih a f h
      · rw [if_neg hx]
        exact ih (a ++ [x]) f (List.mem_append_left _ h)

/-- Every element of a recordset union comes from one of the operands. -/
theorem mem_rsUnionFsm_cases (b : List FsmOrder) :
    ∀ a f, f ∈ rsUnionFsm a b → f ∈ a ∨ f ∈ b := by
  induction b with
  | nil => intro a f h; exact Or.inl h
  | cons x b ih =>
      intro a f h
      rw [rsUnionFsm_cons] at h
      by_cases hx : a.any (fun g => g.id == x.id) = true
      · rw [if_pos hx] at h
        rcases ih a f h with h1 | h2
        · exact Or.inl h1
        · exact Or.inr (List.mem_cons_of_mem x h2)
      · rw [if_neg hx] at h
        rcases ih (a ++ [x]) f h with h1 | h2
        · rcases List.mem_append.mp h1 with h1a | h1x
          · exact Or.inl h1a
          · exact Or.inr (List.mem_cons.mpr (Or.inl (List.mem_singleton.mp h1x)))
        · exact Or.inr (List.mem_cons_of_mem x h2)

/-- A right-operand element lands in the recordset union, provided equal
ids imply equal records across the operands (true in a well-formed table,
where dedup-by-id cannot drop it in favour of a different record). -/
theorem mem_rsUnionFsm_right (b : List FsmOrder) (f : FsmOrder) :
    ∀ a, f ∈ b → (∀ g ∈ a, g.id = f.id → g = f) →
      (∀ g ∈ b, g.id = f.id → g = f) → f ∈ rsUnionFsm a b := by
  induction b with
  | nil =>
      intro a hmem _ _
      cases hmem
  | cons x b ih =>
      intro a hmem hinja hinjb
      rw [rsUnionFsm_cons]
      rcases List.mem_cons.mp hmem with hfx | hfb
      · subst hfx
        by_cases hx : a.any (fun g => g.id == f.id) = true
        · rw [if_pos hx]
          obtain ⟨g, hg, hgid⟩ := List.any_eq_true.mp hx
          have hgf : g = f := hinja g hg (by simpa using hgid)
          exact mem_rsUnionFsm_left b a f (hgf ▸ hg)
        · rw [if_neg hx]
          exact mem_rsUnionFsm_left b (a ++ [f]) f
            (List.mem_append_right a (List.mem_singleton.mpr rfl))
      · by_cases hx : a.any (fun g => g.id == x.id) = true
        · rw [if_pos hx]
          exact ih a hfb hinja
            fun g hg hgid => hinjb g (List.mem_cons_of_mem x hg) hgid
        · rw [if_neg hx]
          refine ih (a ++ [x]) hfb ?_
            fun g hg hgid => hinjb g (List.mem_cons_of_mem x hg) hgid
          intro g hg hgid
          rcases List.mem_append.mp hg with hga | hgx
          · exact hinja g hga hgid
          · have hgex : g = x := List.mem_singleton.mp hgx
            subst hgex
            exact hinjb g (List.mem_cons_self g b) hgid

/-- Union with a list of pairwise distinct ids just appends the new part:
in particular `rsUnionFsm [] l = l` for a duplicate-free search result. -/
theorem rsUnionFsm_append (l : List FsmOrder) :
    ∀ a, ((a ++ l).map FsmOrder.id).Nodup → rsUnionFsm a l = a ++ l := by
  induction l with
  | nil =>
      intro a _
      simp [rsUnionFsm]
  | cons x l ih =>
      intro a h
      rw [rsUnionFsm_cons]
      have hnx : x.id ∉ a.map FsmOrder.id := by
        simp only [List.map_append, List.map_cons, List.nodup_append] at h
        intro hmem
        exact h.2.2 hmem (List.mem_cons_self x.id (l.map FsmOrder.id))
      have hx : a.any (fun g => g.id == x.id) = false := by
        rw [List.any_eq_false]
        intro g hg hgid
        exact hnx (eq_of_beq hgid ▸ List.mem_map_of_mem FsmOrder.id hg)
      rw [if_neg (ne_true_of_eq_false hx)]
      have h2 : (((a ++ [x]) ++ l).map FsmOrder.id).Nodup := by
        rwa [List.append_cons] at h
      rw [ih (a ++ [x]) h2, List.append_assoc]
      rfl

/-- In a list with pairwise distinct ids, equal ids imply equal records. -/
theorem eq_of_mem_id (l : List FsmOrder) (h : (l.map FsmOrder.id).Nodup) :
    ∀ f ∈ l, ∀ g ∈ l, f.id = g.id → f = g := by
  induction l with
  | nil =>
      intro f hf
      cases hf
  | cons x l ih =>
      intro f hf g hg hfg
      simp only [List.map_cons, List.nodup_cons] at h
      rcases List.mem_cons.mp hf with rfl | hf'
      · rcases List.mem_cons.mp hg with rfl | hg'
        · rfl
        · exact absurd (hfg ▸ List.mem_map_of_mem FsmOrder.id hg') h.1
      · rcases List.mem_cons.mp hg with rfl | hg'
        · exact absurd (hfg ▸ List.mem_map_of_mem FsmOrder.id hf') h.1
        · exact ih h.2 f hf' g hg' hfg

/-- Claim C8: over a well-formed table, `_compute_fsm_order_ids` assigns
as `fsm_order_ids` exactly the union of the `fsm.order` records whose line
reference is among the order's lines and those whose sale reference is the
order, and assigns the union's cardinality as `fsm_order_count`; the
computation is a pure read of the table. -/
theorem compute_fsm_order_ids_spec (env : Env) (o : SaleOrder) (h : wfEnv env) :
    (compute_fsm_order_ids env o).2 = (compute_fsm_order_ids env o).1.length ∧
    ∀ f, f ∈ (compute_fsm_order_ids env o).1 ↔
      (f ∈ env.fsm_orders ∧
        ((∃ l, f.sale_line_id = some l ∧ l ∈ o.order_line.map SaleOrderLine.id) ∨
          f.sale_id = some o.id)) := by
  have hcomp : (compute_fsm_order_ids env o).1
      = rsUnionFsm (rsUnionFsm [] (env.fsm_orders.filter (lineDomain o)))
          (env.fsm_orders.filter (saleDomain o)) := rfl
  have hsubL : List.Sublist ((env.fsm_orders.filter (lineDomain o)).map FsmOrder.id)
      (env.fsm_orders.map FsmOrder.id) :=
    (List.filter_sublist env.fsm_orders).map FsmOrder.id
  have h1 : rsUnionFsm [] (env.fsm_orders.filter (lineDomain o))
      = env.fsm_orders.filter (lineDomain o) := by
    have := rsUnionFsm_append (env.fsm_orders.filter (lineDomain o)) []
      (by simpa using hsubL.nodup h)
    simpa using this
  refine ⟨rfl, fun f => ⟨fun hf => ?_, fun hf => ?_⟩⟩
  · rw [hcomp, h1] at hf
    rcases mem_rsUnionFsm_cases _ _ _ hf with hA | hB
    · obtain ⟨hmem, hdom⟩ := List.mem_filter.mp hA
      refine ⟨hmem, Or.inl ?_⟩
      unfold lineDomain at hdom
      cases hsl : f.sale_line_id with
      | none => rw [hsl] at hdom; cases hdom
      | some l =>
          rw [hsl] at hdom
          exact ⟨l, rfl, by simpa [List.contains] using hdom⟩
    · obtain ⟨hmem, hdom⟩ := List.mem_filter.mp hB
      exact ⟨hmem, Or.inr (eq_of_beq hdom)⟩
  · obtain ⟨hmem, hcase⟩ := hf
    rw [hcomp, h1]
    rcases hcase with ⟨l, hsl, hl⟩ | hsale
    · apply mem_rsUnionFsm_left
      refine List.mem_filter.mpr ⟨hmem, ?_⟩
      unfold lineDomain
      rw [hsl]
      simpa [List.contains] using hl
    · apply mem_rsUnionFsm_right (env.fsm_orders.filter (saleDomain o)) f
        (env.fsm_orders.filter (lineDomain o))
      · refine List.mem_filter.mpr ⟨hmem, ?_⟩
        unfold saleDomain
        rw [hsale]
        exact beq_self_eq_true (some o.id)
      · intro g hg hgid
        exact eq_of_mem_id env.fsm_orders h g (List.mem_filter.mp hg).1 f hmem hgid
      · intro g hg hgid
        exact eq_of_mem_id env.fsm_orders h g (List.mem_filter.mp hg).1 f hmem hgid

/-- Witness for C8: in the table holding a line-linked and an order-linked
`fsm.order` for the concrete order, both appear in the computed set and
the count is its length. -/
theorem compute_fsm_order_ids_spec_witness :
    wfEnv exEnvLinked ∧
    exFsmOrderLevel ∈ (compute_fsm_order_ids exEnvLinked exOrderSale).1 ∧
    exFsmLineLevel ∈ (compute_fsm_order_ids exEnvLinked exOrderSale).1 ∧
    (compute_fsm_order_ids exEnvLinked exOrderSale).2
      = (compute_fsm_order_ids exEnvLinked exOrderSale).1.length := by
  have hwf : wfEnv exEnvLinked := by
    unfold wfEnv
    decide
  have h := compute_fsm_order_ids_spec exEnvLinked exOrderSale hwf
  refine ⟨hwf, ?_, ?_, h.1⟩
  · exact (h.2 exFsmOrderLevel).mpr
      ⟨List.mem_cons_self exFsmOrderLevel [exFsmLineLevel], Or.inr rfl⟩
  · exact (h.2 exFsmLineLevel).mpr
      ⟨List.mem_cons_of_mem exFsmOrderLevel
        (List.mem_cons_self exFsmLineLevel []), Or.inl ⟨101, rfl, by decide⟩⟩

end FieldserviceSale
